import Mathlib

/-!
# Verification of the KiCon '19 badge host-side protocol driver

Shallow embedding of `python/kicon_badge.py` (class `KiconBadge`): the
XOR checksum `_crc`, the frame encoders `_make_cmd` / `_make_resp`, the
response decoder `_get_resp`, the reset handshake `init`, and the
validation logic of the command operations (`led_set`, `i2c_read`,
`i2c_write`).

Modelling conventions:
* Bytes are `Nat`; a Python `bytes` object is a `List Nat` whose
  elements are `≤ 255`.
* `struct.pack` raises `struct.error` when an integer handed to a `B`
  field does not fit in one byte; packing functions therefore return
  `Option` / embed a `packError` case, `none` standing for the raise.
* The serial port is modelled by the byte stream it delivers: the
  decoder takes the incoming stream as a list, the reset loop takes the
  sequence of read results as a function from the read index.
* The numeric opcodes live in `commands_def.py`, which is imported by
  the source but whose values are outside it; every opcode is therefore
  a parameter (`ctLed`, `opLedSet`, `respOk`, ...) rather than a fixed
  constant.
-/

namespace KiconBadge

/-- Python data that `_crc` can receive: a byte string or a plain int. -/
inductive PyData where
  | bytes (l : List Nat) : PyData
  | int (n : Nat) : PyData

/-- Embeds `_crc` (kicon_badge.py lines 51-60): XOR-fold over an iterable;
iterating over an `int` raises `TypeError`, which the handler turns into
`crc = data`. -/
def crc : PyData → Nat
  | .bytes l => l.foldl (fun acc c => acc ^^^ c) 0
  | .int n => n

/-- Embeds `_make_resp` (lines 63-64): `struct.pack('>BBB', 1, resp, _crc(resp))`.
`none` models the `struct.error` raised when a field exceeds one byte. -/
def make_resp (resp : Nat) : Option (List Nat) :=
  if resp ≤ 255 ∧ crc (.int resp) ≤ 255 then
    some [1, resp, crc (.int resp)]
  else none

/-- Embeds `_make_cmd` (lines 67-74).  With data: `data_bytes = [cmd] ++ data`,
frame `[len(data_bytes)] ++ data_bytes ++ [crc(data_bytes)]`; without data the
frame is `[1, cmd, crc(cmd)]`.  The guard collects the one-byte range checks
`struct.pack` performs on its `B` fields; `none` models the raise. -/
def make_cmd (cmd : Nat) (data : Option (List Nat)) : Option (List Nat) :=
  match data with
  | some d =>
      let data_bytes := cmd :: d
      let data_len := data_bytes.length
      if cmd ≤ 255 ∧ data_len ≤ 255 ∧ crc (.bytes data_bytes) ≤ 255 then
        some (data_len :: data_bytes ++ [crc (.bytes data_bytes)])
      else none
  | none =>
      if cmd ≤ 255 ∧ crc (.int cmd) ≤ 255 then
        some [1, cmd, crc (.int cmd)]
      else none

/-- Errors raised by `_get_resp` (lines 85-91): the CRC-mismatch exception
(carrying computed and received values) and the not-OK-status exception
(carrying the status byte and the stripped payload). -/
inductive RespError where
  | crcError (computed received : Nat) : RespError
  | protocolError (status : Nat) (payload : List Nat) : RespError
  deriving DecidableEq, Repr

/-- The body read by `_get_resp` (line 79): after the length byte
`stream.headD 0`, the next `length + 1` bytes of the incoming stream. -/
def respBody (stream : List Nat) : List Nat :=
  (stream.drop 1).take (stream.headD 0 + 1)

/-- Embeds `_get_resp` (lines 77-93) as a function of the incoming serial
byte stream: reads one length byte, then `length + 1` body bytes, checks
the XOR checksum first and the status byte second, and returns the body
with the status byte and checksum byte stripped. -/
def get_resp (respOk : Nat) (stream : List Nat) : Except RespError (List Nat) :=
  let resp_data := respBody stream
  let resp_type := resp_data.headD 0
  let resp_crc := resp_data.getLastD 0
  let calc_crc := crc (.bytes resp_data.dropLast)
  let raw_data := (resp_data.drop 1).dropLast
  if resp_crc ≠ calc_crc then
    .error (.crcError calc_crc resp_crc)
  else if resp_type ≠ respOk then
    .error (.protocolError resp_type raw_data)
  else
    .ok raw_data

/-- A response stream is well formed when it actually contains the length
byte plus the `length + 1` body bytes the decoder reads (a shorter stream
is a timed-out, truncated read). -/
def wellFormed (stream : List Nat) : Prop :=
  stream.headD 0 + 2 ≤ stream.length

instance (stream : List Nat) : Decidable (wellFormed stream) := by
  unfold wellFormed; infer_instance

end KiconBadge

open KiconBadge

/-- C7: `_crc` on a byte sequence is invariant under permutation of the
input; in particular `_crc [a, b] = _crc [b, a]`. -/
theorem crc_perm_invariant :
    (∀ l₁ l₂ : List Nat, l₁.Perm l₂ → crc (.bytes l₁) = crc (.bytes l₂)) ∧
    (∀ a b : Nat, crc (.bytes [a, b]) = crc (.bytes [b, a])) := by
  have key : ∀ l₁ l₂ : List Nat, l₁.Perm l₂ → ∀ acc : Nat,
      l₁.foldl (fun acc c => acc ^^^ c) acc = l₂.foldl (fun acc c => acc ^^^ c) acc := by
    intro l₁ l₂ hp
    induction hp with
    | nil => intro acc; rfl
    | cons x _ ih =>
        intro acc
        simp only [List.foldl_cons]
        exact ih _
    | swap x y l =>
        intro acc
        simp only [List.foldl_cons]
        rw [Nat.xor_assoc, Nat.xor_comm y x, ← Nat.xor_assoc]
    | trans _ _ ih₁ ih₂ =>
        intro acc
        exact (ih₁ acc).trans (ih₂ acc)
  refine ⟨fun l₁ l₂ hp => key l₁ l₂ hp 0, fun a b => key [a, b] [b, a] ?_ 0⟩
  exact List.Perm.swap b a []

/-- C7 witness: the permutation hypothesis discharged on `[1, 2]` and `[2, 1]`. -/
theorem crc_perm_invariant_witness :
    crc (.bytes [1, 2]) = crc (.bytes [2, 1]) :=
  crc_perm_invariant.1 [1, 2] [2, 1] (List.Perm.swap 2 1 [])

/-- C8: `_crc` of a scalar byte equals `_crc` of the one-element sequence
holding it, both being the byte itself, and `_crc` of the empty sequence
is `0`; it is total on these inputs. -/
theorem crc_scalar_eq_singleton :
    (∀ b : Nat, crc (.int b) = crc (.bytes [b]) ∧ crc (.bytes [b]) = b) ∧
    crc (.bytes []) = 0 := by
  constructor
  · intro b
    constructor
    · simp [crc, Nat.zero_xor]
    · simp [crc, Nat.zero_xor]
  · rfl

/-- C10: for every byte value `b`, `_make_resp b` and `_make_cmd b` with no
payload build the same 3-byte frame `[1, b, _crc(b)] = [1, b, b]`. -/
theorem make_resp_eq_make_cmd_none (b : Nat) (hb : b ≤ 255) :
    make_resp b = some [1, b, b] ∧ make_cmd b none = some [1, b, b] := by
  constructor
  · simp [make_resp, crc, hb]
  · simp [make_cmd, crc, hb]

/-- C10 witness: the byte bound discharged at `b = 7`. -/
theorem make_resp_eq_make_cmd_none_witness :
    make_resp 7 = some [1, 7, 7] ∧ make_cmd 7 none = some [1, 7, 7] :=
  make_resp_eq_make_cmd_none 7 (by decide)

/-- C1: on a well-formed response stream, `_get_resp` returns the body
stripped of its status and checksum bytes exactly when the XOR checksum
over all body bytes but the last equals the last body byte and the status
byte is the OK code; a checksum mismatch raises the CRC error carrying the
computed and received values, taking precedence over the status check; a
matching checksum with a non-OK status raises the protocol error carrying
the status and the payload. -/
theorem get_resp_spec (respOk : Nat) (stream : List Nat) (h : wellFormed stream) :
    (get_resp respOk stream = .ok (((respBody stream).drop 1).dropLast) ↔
      crc (.bytes (respBody stream).dropLast) = (respBody stream).getLastD 0 ∧
        (respBody stream).headD 0 = respOk) ∧
    (crc (.bytes (respBody stream).dropLast) ≠ (respBody stream).getLastD 0 →
      get_resp respOk stream =
        .error (.crcError (crc (.bytes (respBody stream).dropLast))
          ((respBody stream).getLastD 0))) ∧
    (crc (.bytes (respBody stream).dropLast) = (respBody stream).getLastD 0 →
      (respBody stream).headD 0 ≠ respOk →
      get_resp respOk stream =
        .error (.protocolError ((respBody stream).headD 0)
          (((respBody stream).drop 1).dropLast))) := by
  have hgr : get_resp respOk stream =
      if (respBody stream).getLastD 0 ≠ crc (.bytes (respBody stream).dropLast) then
        .error (.crcError (crc (.bytes (respBody stream).dropLast))
          ((respBody stream).getLastD 0))
      else if (respBody stream).headD 0 ≠ respOk then
        .error (.protocolError ((respBody stream).headD 0)
          (((respBody stream).drop 1).dropLast))
      else
        .ok (((respBody stream).drop 1).dropLast) := rfl
  rw [hgr]
  by_cases h1 : crc (.bytes (respBody stream).dropLast) = (respBody stream).getLastD 0
  · rw [if_neg (not_not_intro h1.symm)]
    by_cases h2 : (respBody stream).headD 0 = respOk
    · rw [if_neg (not_not_intro h2)]
      exact ⟨iff_of_true rfl ⟨h1, h2⟩, fun hne => absurd h1 hne, fun _ hne => absurd h2 hne⟩
    · rw [if_pos h2]
      exact ⟨iff_of_false (fun hx => by cases hx) (fun hc => h2 hc.2),
        fun hne => absurd h1 hne, fun _ _ => rfl⟩
  · rw [if_pos (fun e => h1 e.symm)]
    exact ⟨iff_of_false (fun hx => by cases hx) (fun hc => h1 hc.1),
      fun _ => rfl, fun e _ => absurd e h1⟩

/-- C1 witness: the well-formedness hypothesis discharged on the concrete
stream `[1, 0, 0]` (length byte 1, status 0, checksum 0), with OK code 0. -/
theorem get_resp_spec_witness :
    wellFormed [1, 0, 0] ∧
    ((get_resp 0 [1, 0, 0] = .ok (((respBody [1, 0, 0]).drop 1).dropLast) ↔
      crc (.bytes (respBody [1, 0, 0]).dropLast) = (respBody [1, 0, 0]).getLastD 0 ∧
        (respBody [1, 0, 0]).headD 0 = 0) ∧
    (crc (.bytes (respBody [1, 0, 0]).dropLast) ≠ (respBody [1, 0, 0]).getLastD 0 →
      get_resp 0 [1, 0, 0] =
        .error (.crcError (crc (.bytes (respBody [1, 0, 0]).dropLast))
          ((respBody [1, 0, 0]).getLastD 0))) ∧
    (crc (.bytes (respBody [1, 0, 0]).dropLast) = (respBody [1, 0, 0]).getLastD 0 →
      (respBody [1, 0, 0]).headD 0 ≠ 0 →
      get_resp 0 [1, 0, 0] =
        .error (.protocolError ((respBody [1, 0, 0]).headD 0)
          (((respBody [1, 0, 0]).drop 1).dropLast)))) :=
  ⟨by decide, get_resp_spec 0 [1, 0, 0] (by decide)⟩

/-- C2: decoding the exact byte stream built by `_make_cmd` for a command
and payload yields back the original payload, when the decoder's OK status
code equals the command byte: the encoder's checksum always verifies and
its length prefix exactly sizes the decoder's read. -/
theorem make_cmd_get_resp_roundtrip (cmd : Nat) (data frame : List Nat)
    (h : make_cmd cmd (some data) = some frame) :
    get_resp cmd frame = .ok data := by
  simp only [make_cmd] at h
  split at h
  · injection h with h
    subst h
    simp [get_resp, respBody, List.take_of_length_le, List.dropLast_concat,
      List.getLastD_concat]
    rw [← List.cons_append, List.getLast?_concat, List.dropLast_concat]
    rfl
  · exact absurd h (by simp)

/-- C2 witness: the encoder hypothesis discharged for command byte 2 and
payload `[10, 20]`. -/
theorem make_cmd_get_resp_roundtrip_witness :
    make_cmd 2 (some [10, 20]) = some [3, 2, 10, 20, 28] ∧
    get_resp 2 [3, 2, 10, 20, 28] = .ok [10, 20] :=
  ⟨by decide, make_cmd_get_resp_roundtrip 2 [10, 20] [3, 2, 10, 20, 28] (by decide)⟩

namespace KiconBadge

/-- Outcome of the reset handshake `init` (lines 98-114): `ready t` models a
return after `t` mismatched reads (each followed by one resend of the 1-byte
reset command); `noResponse n` models the `'No response after reset'`
exception raised after `n` mismatched reads and resends. -/
inductive InitResult where
  | ready (resends : Nat) : InitResult
  | noResponse (resends : Nat) : InitResult
  deriving DecidableEq, Repr

/-- Embeds the retry loop of `init` (lines 107-114).  `reads k` is the badge's
reply to the `k`-th read that is compared against the expected acknowledgment
frame (the initial blind read of line 105, whose result is discarded, is not
among them).  `trials` is the source's counter; `fuel` keeps the recursion
structural and is `255 - trials` at every call, so the exception fires when
`trials` reaches 256 exactly as in the source. -/
def initLoop (expected : List Nat) (reads : Nat → List Nat) : Nat → Nat → InitResult
  | trials, 0 =>
      if reads trials = expected then .ready trials else .noResponse (trials + 1)
  | trials, fuel + 1 =>
      if reads trials = expected then .ready trials
      else initLoop expected reads (trials + 1) fuel

/-- The whole retry phase of `init`: the loop starts with `trials = 0` and
can raise only once `trials` reaches 256. -/
def init_model (expected : List Nat) (reads : Nat → List Nat) : InitResult :=
  initLoop expected reads 0 255

end KiconBadge

lemma initLoop_all_fail (expected : List Nat) (reads : Nat → List Nat) :
    ∀ fuel trials, (∀ k, trials ≤ k → k ≤ trials + fuel → reads k ≠ expected) →
      initLoop expected reads trials fuel = .noResponse (trials + fuel + 1) := by
  intro fuel
  induction fuel with
  | zero =>
      intro t hfail
      simp [initLoop, hfail t le_rfl (by omega)]
  | succ f ih =>
      intro t hfail
      have hstep : initLoop expected reads t (f + 1) = initLoop expected reads (t + 1) f := by
        simp [initLoop, hfail t le_rfl (by omega)]
      have hrec := ih (t + 1) (fun k hk1 hk2 => hfail k (by omega) (by omega))
      rw [hstep, hrec]
      have : t + 1 + f + 1 = t + (f + 1) + 1 := by omega
      rw [this]

/-- C4: if the first compared acknowledgment read matches the expected frame,
`init` returns with zero resends of the reset command; if the first 256
compared reads all mismatch, `init` raises 'No response after reset' after
exactly 256 mismatched reads, one resend following each mismatch (reads past
the 256th are never consulted). -/
theorem init_reset_handshake (expected : List Nat) (reads : Nat → List Nat) :
    (reads 0 = expected → init_model expected reads = .ready 0) ∧
    ((∀ k, k < 256 → reads k ≠ expected) →
      init_model expected reads = .noResponse 256) := by
  constructor
  · intro h
    simp [init_model, initLoop, h]
  · intro h
    have := initLoop_all_fail expected reads 255 0 (fun k hk1 hk2 => h k (by omega))
    simpa [init_model] using this

/-- C4 witness: both hypotheses discharged, with a badge that acknowledges
immediately and one that always answers with an empty read. -/
theorem init_reset_handshake_witness :
    init_model [1, 6, 6] (fun _ => [1, 6, 6]) = .ready 0 ∧
    init_model [1, 6, 6] (fun _ => []) = .noResponse 256 :=
  ⟨(init_reset_handshake [1, 6, 6] (fun _ => [1, 6, 6])).1 rfl,
   (init_reset_handshake [1, 6, 6] (fun _ => [])).2 (fun k _ h => by cases h)⟩

namespace KiconBadge

def LED1 : Nat := 0
def LED2 : Nat := 1

/-- The validation message of `led_set` (line 168). -/
def ledInvalidMsg : String := "Invalid LED number"

/-- Errors raised by a command operation while building its frame:
a validation failure (lines 167-168 etc., message attached) or a
`struct.error` from packing an out-of-range field. -/
inductive BadgeError where
  | invalidArgument (msg : String) : BadgeError
  | packError : BadgeError
  deriving DecidableEq, Repr

/-- Embeds the frame construction of `led_set` (lines 166-173): validates the
LED number against `{LED1, LED2}`, packs `[CMD_LED_SET, led, state]` and wraps
it via `_make_cmd` with the LED group byte.  The result is the byte string
written to the serial port; an error models the raise, which happens before
anything is written. -/
def led_set_frame (ctLed opLedSet led state : Nat) : Except BadgeError (List Nat) :=
  if ¬(led = LED1 ∨ led = LED2) then .error (.invalidArgument ledInvalidMsg)
  else if opLedSet ≤ 255 ∧ led ≤ 255 ∧ state ≤ 255 then
    match make_cmd ctLed (some [opLedSet, led, state]) with
    | some f => .ok f
    | none => .error .packError
  else .error .packError

end KiconBadge

/-- C3 counterexample: at the representative opcode values `ctLed = 2`,
`opLedSet = 1`, the frame `led_set(LED1, 1)` writes is
`[4, 2, 1, 0, 1, 2]` — its leading length byte is 4 (the group byte is
counted), not 3 as claimed. -/
theorem led_set_length_byte_counterexample :
    led_set_frame 2 1 0 1 = .ok [4, 2, 1, 0, 1, 2 ^^^ 1 ^^^ 0 ^^^ 1] ∧
    [4, 2, 1, 0, 1, 2 ^^^ 1 ^^^ 0 ^^^ 1] ≠ [3, 2, 1, 0, 1, 2 ^^^ 1 ^^^ 0 ^^^ 1] := by
  constructor
  · rfl
  · decide

/-- C3 (amended): `led_set(LED1, 1)` writes exactly the frame
`[4, ctLed, opLedSet, 0, 1, checksum]`, whose leading length byte is 4 and
whose checksum is the XOR of the LED group byte, the LED_SET opcode, 0, 1. -/
theorem led_set_frame_spec (ctLed opLedSet : Nat)
    (hc : ctLed ≤ 255) (ho : opLedSet ≤ 255) :
    led_set_frame ctLed opLedSet LED1 1 =
      .ok [4, ctLed, opLedSet, 0, 1, ctLed ^^^ opLedSet ^^^ 0 ^^^ 1] := by
  have hxor : ctLed ^^^ opLedSet ^^^ 1 ≤ 255 := by
    have h1 : ctLed < 2 ^ 8 := by omega
    have h2 : opLedSet < 2 ^ 8 := by omega
    have h4 : (1 : Nat) < 2 ^ 8 := by norm_num
    have := Nat.xor_lt_two_pow (Nat.xor_lt_two_pow h1 h2) h4
    omega
  simp [led_set_frame, LED1, LED2, make_cmd, crc, hc, ho, hxor]

/-- C3 witness for the amended theorem: the opcode byte bounds discharged at
`ctLed = 2`, `opLedSet = 1`. -/
theorem led_set_frame_spec_witness :
    led_set_frame 2 1 LED1 1 = .ok [4, 2, 1, 0, 1, 2 ^^^ 1 ^^^ 0 ^^^ 1] :=
  led_set_frame_spec 2 1 (by decide) (by decide)

namespace KiconBadge

/-- Python's `int.bit_length()`: number of binary digits, 0 for 0.  The
first argument is fuel (`n` itself is enough) keeping the recursion
structural. -/
def bitLenAux : Nat → Nat → Nat
  | 0, _ => 0
  | fuel + 1, n => if n = 0 then 0 else bitLenAux fuel (n / 2) + 1

/-- `n.bit_length()` as used on lines 220 and 243. -/
def bit_length (n : Nat) : Nat := bitLenAux n n

/-- `n.to_bytes(len, 'big')`: big-endian byte string of exactly `len`
bytes. -/
def beBytes : Nat → Nat → List Nat
  | 0, _ => []
  | len + 1, n => beBytes len (n / 256) ++ [n % 256]

/-- Embeds the integer register-address conversion (lines 219-220 and
242-243): `reg_addr.to_bytes(max(1, (reg_addr.bit_length() + 7) // 8), 'big')`. -/
def natToBeBytes (n : Nat) : List Nat :=
  beBytes (Nat.max 1 ((bit_length n + 7) / 8)) n

/-- The register-address argument: call sites pass either an `int` or a
byte string (the `type(reg_addr) == int` dispatch on lines 219 and 242). -/
inductive RegAddr where
  | int (n : Nat) : RegAddr
  | bytes (l : List Nat) : RegAddr

def regAddrToBytes : RegAddr → List Nat
  | .int n => natToBeBytes n
  | .bytes l => l

/-- Validation messages of the I2C operations (lines 225, 228, 249, 252). -/
def i2cRegAddrMsg : String := "I2C register address cannot be longer than 4 bytes"

def i2cReadLenMsg : String := "Requested data length must be in range [0-255]"

def i2cWriteLenMsg : String := "Written data length must be in range [0-255]"

/-- Embeds the validation and frame construction of `i2c_read`
(lines 218-234): converts an integer register address, validates the
address length and the requested length (a Python int, possibly negative,
hence `Int`), packs `[CMD_I2C_READ, dev_addr, reg_addr_len] ++ reg_addr ++
[length]` and wraps it via `_make_cmd` with the I2C group byte.  An error
models the raise, which happens before anything is written. -/
def i2c_read_frame (ctI2c opI2cRead dev_addr : Nat) (reg_addr : RegAddr)
    (length : Int) : Except BadgeError (List Nat) :=
  let ra := regAddrToBytes reg_addr
  let reg_addr_len := ra.length
  if reg_addr_len > 4 then .error (.invalidArgument i2cRegAddrMsg)
  else if length < 0 ∨ length > 255 then .error (.invalidArgument i2cReadLenMsg)
  else if opI2cRead ≤ 255 ∧ dev_addr ≤ 255 ∧ reg_addr_len ≤ 255 ∧ length.toNat ≤ 255 then
    match make_cmd ctI2c
      (some ([opI2cRead, dev_addr, reg_addr_len] ++ ra ++ [length.toNat])) with
    | some f => .ok f
    | none => .error .packError
  else .error .packError

/-- Embeds the validation and frame construction of `i2c_write`
(lines 241-258): same register-address handling, validates the data
length, packs `[CMD_I2C_WRITE, dev_addr, reg_addr_len] ++ reg_addr ++
[data_len] ++ data`. -/
def i2c_write_frame (ctI2c opI2cWrite dev_addr : Nat) (reg_addr : RegAddr)
    (data : List Nat) : Except BadgeError (List Nat) :=
  let ra := regAddrToBytes reg_addr
  let reg_addr_len := ra.length
  let data_len := data.length
  if reg_addr_len > 4 then .error (.invalidArgument i2cRegAddrMsg)
  else if data_len > 255 then .error (.invalidArgument i2cWriteLenMsg)
  else if opI2cWrite ≤ 255 ∧ dev_addr ≤ 255 ∧ reg_addr_len ≤ 255 ∧ data_len ≤ 255 then
    match make_cmd ctI2c
      (some ([opI2cWrite, dev_addr, reg_addr_len] ++ ra ++ [data_len] ++ data)) with
    | some f => .ok f
    | none => .error .packError
  else .error .packError

/-- The big-endian value a byte string encodes; used to state what
`to_bytes` produces. -/
def beVal (l : List Nat) : Nat := l.foldl (fun acc b => acc * 256 + b) 0

/-- The spec's wording of the integer-address conversion, for comparison
with the source's `to_bytes` expression: a big-endian byte encoding of `n`
using the minimum number of bytes that represent the value, at least 1 byte. -/
def specIsMinimalBe (n : Nat) (l : List Nat) : Prop :=
  beVal l = n ∧ l ≠ [] ∧ (∀ b ∈ l, b ≤ 255) ∧
  ∀ l' : List Nat, (∀ b ∈ l', b ≤ 255) → beVal l' = n → l' ≠ [] →
    l.length ≤ l'.length

end KiconBadge

/-- C5: with any device address and any register address serializing to at
most 4 bytes, `i2c_write` with exactly 255 data bytes passes validation —
no InvalidArgument is raised — while 256 data bytes fail with the
InvalidArgument data-length error; the error is produced before the
transport write, which is never reached on the error path. -/
theorem i2c_write_length_boundary (ctI2c opI2cWrite dev_addr : Nat)
    (reg_addr : RegAddr) (hra : (regAddrToBytes reg_addr).length ≤ 4) :
    (∀ data : List Nat, data.length = 255 →
      ∀ msg, i2c_write_frame ctI2c opI2cWrite dev_addr reg_addr data ≠
        .error (.invalidArgument msg)) ∧
    (∀ data : List Nat, data.length = 256 →
      i2c_write_frame ctI2c opI2cWrite dev_addr reg_addr data =
        .error (.invalidArgument i2cWriteLenMsg)) := by
  constructor
  · intro data hlen msg
    simp only [i2c_write_frame]
    rw [if_neg (by omega), if_neg (by omega)]
    by_cases hg : opI2cWrite ≤ 255 ∧ dev_addr ≤ 255 ∧
        (regAddrToBytes reg_addr).length ≤ 255 ∧ data.length ≤ 255
    · rw [if_pos hg]
      cases hmc : make_cmd ctI2c
          (some ([opI2cWrite, dev_addr, (regAddrToBytes reg_addr).length] ++
            regAddrToBytes reg_addr ++ [data.length] ++ data)) with
      | some f => simp
      | none => simp
    · rw [if_neg hg]
      simp
  · intro data hlen
    simp only [i2c_write_frame]
    rw [if_neg (by omega), if_pos (by omega)]

/-- C5 witness: the register-address bound discharged for the 1-byte
address 0, with 255- and 256-byte data blocks of zeros. -/
theorem i2c_write_length_boundary_witness :
    i2c_write_frame 0 0 0 (.int 0) (List.replicate 255 0) ≠
      .error (.invalidArgument i2cWriteLenMsg) ∧
    i2c_write_frame 0 0 0 (.int 0) (List.replicate 256 0) =
      .error (.invalidArgument i2cWriteLenMsg) :=
  ⟨(i2c_write_length_boundary 0 0 0 (.int 0) (by decide)).1
      (List.replicate 255 0) (List.length_replicate 255 0) i2cWriteLenMsg,
   (i2c_write_length_boundary 0 0 0 (.int 0) (by decide)).2
      (List.replicate 256 0) (List.length_replicate 256 0)⟩

lemma natMax_eq_max (a b : Nat) : Nat.max a b = max a b := rfl

lemma crc_foldl_lt : ∀ (l : List Nat) (acc : Nat), acc < 2 ^ 8 →
    (∀ b ∈ l, b < 2 ^ 8) → l.foldl (fun acc c => acc ^^^ c) acc < 2 ^ 8 := by
  intro l
  induction l with
  | nil => intro acc h _; simpa using h
  | cons b t ih =>
      intro acc hacc hb
      simp only [List.foldl_cons]
      exact ih _ (Nat.xor_lt_two_pow hacc (hb b (by simp)))
        (fun x hx => hb x (by simp [hx]))

lemma crc_bytes_le (l : List Nat) (h : ∀ b ∈ l, b ≤ 255) : crc (.bytes l) ≤ 255 := by
  have h2 := crc_foldl_lt l 0 (by norm_num) (fun b hb => by have := h b hb; omega)
  have h3 : crc (.bytes l) = l.foldl (fun acc c => acc ^^^ c) 0 := rfl
  omega

lemma bitLenAux_bounds : ∀ fuel n, n ≤ fuel →
    n < 2 ^ bitLenAux fuel n ∧ (n ≠ 0 → 2 ^ (bitLenAux fuel n - 1) ≤ n) := by
  intro fuel
  induction fuel with
  | zero =>
      intro n hn
      have h0 : n = 0 := Nat.le_zero.mp hn
      subst h0
      exact ⟨by simp [bitLenAux], fun h => absurd rfl h⟩
  | succ f ih =>
      intro n hn
      by_cases h0 : n = 0
      · subst h0
        exact ⟨by simp [bitLenAux], fun h => absurd rfl h⟩
      · have hrec : n / 2 ≤ f := by omega
        obtain ⟨ih1, ih2⟩ := ih (n / 2) hrec
        have hb : bitLenAux (f + 1) n = bitLenAux f (n / 2) + 1 := by
          simp [bitLenAux, h0]
        rw [hb]
        constructor
        · have hp : 2 ^ (bitLenAux f (n / 2) + 1) = 2 * 2 ^ bitLenAux f (n / 2) := by
            rw [pow_succ]; ring
          omega
        · intro _
          simp only [Nat.add_sub_cancel]
          by_cases h2 : n / 2 = 0
          · have hz : bitLenAux f (n / 2) = 0 := by
              rw [h2]; cases f <;> simp [bitLenAux]
            rw [hz]
            omega
          · have hpos : 1 ≤ bitLenAux f (n / 2) := by
              by_contra hcon
              push_neg at hcon
              have hz : bitLenAux f (n / 2) = 0 := by omega
              rw [hz] at ih1
              omega
            have h3 := ih2 h2
            have h4 : 2 ^ bitLenAux f (n / 2) = 2 ^ (bitLenAux f (n / 2) - 1) * 2 := by
              rw [← pow_succ]
              congr 1
              omega
            omega

lemma bit_length_bounds (n : Nat) :
    n < 2 ^ bit_length n ∧ (n ≠ 0 → 2 ^ (bit_length n - 1) ≤ n) :=
  bitLenAux_bounds n n le_rfl

lemma beBytes_length : ∀ len n, (beBytes len n).length = len := by
  intro len
  induction len with
  | zero => intro n; rfl
  | succ l ih => intro n; simp [beBytes, ih]

lemma beBytes_bytes : ∀ len n, ∀ b ∈ beBytes len n, b ≤ 255 := by
  intro len
  induction len with
  | zero => intro n b hb; simp [beBytes] at hb
  | succ l ih =>
      intro n b hb
      simp only [beBytes, List.mem_append, List.mem_singleton] at hb
      rcases hb with hb | hb
      · exact ih (n / 256) b hb
      · subst hb
        have := Nat.mod_lt n (show 0 < 256 by norm_num)
        omega

lemma beVal_foldl : ∀ len (n acc : Nat),
    (beBytes len n).foldl (fun acc b => acc * 256 + b) acc =
      acc * 256 ^ len + n % 256 ^ len := by
  intro len
  induction len with
  | zero => intro n acc; simp [beBytes, Nat.mod_one]
  | succ l ih =>
      intro n acc
      simp only [beBytes, List.foldl_append, List.foldl_cons, List.foldl_nil]
      rw [ih (n / 256) acc]
      have h1 : (256 : Nat) ^ (l + 1) = 256 * 256 ^ l := by rw [pow_succ]; ring
      have h2 : n % 256 ^ (l + 1) = n % 256 + 256 * (n / 256 % 256 ^ l) := by
        rw [h1, Nat.mod_mul]
      rw [h2, h1]
      ring

lemma beVal_beBytes (len n : Nat) (h : n < 256 ^ len) : beVal (beBytes len n) = n := by
  unfold beVal
  rw [beVal_foldl, Nat.mod_eq_of_lt h]
  ring

lemma beVal_lt_aux : ∀ (l : List Nat) (acc : Nat), (∀ b ∈ l, b ≤ 255) →
    l.foldl (fun acc b => acc * 256 + b) acc < (acc + 1) * 256 ^ l.length := by
  intro l
  induction l with
  | nil => intro acc _; simp
  | cons b t ih =>
      intro acc h
      simp only [List.foldl_cons, List.length_cons]
      have hb : b ≤ 255 := h b (by simp)
      have ht := ih (acc * 256 + b) (fun x hx => h x (by simp [hx]))
      have hm : (acc * 256 + b + 1) * 256 ^ t.length ≤ (acc + 1) * 256 ^ (t.length + 1) := by
        have h1 : (256 : Nat) ^ (t.length + 1) = 256 ^ t.length * 256 := pow_succ 256 t.length
        have h2 : acc * 256 + b + 1 ≤ (acc + 1) * 256 := by omega
        calc (acc * 256 + b + 1) * 256 ^ t.length
            ≤ ((acc + 1) * 256) * 256 ^ t.length := Nat.mul_le_mul_right _ h2
          _ = (acc + 1) * 256 ^ (t.length + 1) := by rw [h1]; ring
      omega

lemma beVal_lt (l : List Nat) (h : ∀ b ∈ l, b ≤ 255) : beVal l < 256 ^ l.length := by
  have := beVal_lt_aux l 0 h
  simpa [beVal] using this

lemma natToBeBytes_minimal (n : Nat) : specIsMinimalBe n (natToBeBytes n) := by
  obtain ⟨hlt, hge⟩ := bit_length_bounds n
  have hmax := natMax_eq_max 1 ((bit_length n + 7) / 8)
  have hbl : bit_length n ≤ 8 * Nat.max 1 ((bit_length n + 7) / 8) := by
    rw [hmax]; omega
  have hpow : 2 ^ bit_length n ≤ 256 ^ Nat.max 1 ((bit_length n + 7) / 8) := by
    rw [show (256 : Nat) = 2 ^ 8 by norm_num, ← pow_mul]
    exact Nat.pow_le_pow_right (by norm_num) hbl
  have hnlt : n < 256 ^ Nat.max 1 ((bit_length n + 7) / 8) := lt_of_lt_of_le hlt hpow
  have hlen : (natToBeBytes n).length = Nat.max 1 ((bit_length n + 7) / 8) :=
    beBytes_length _ n
  refine ⟨beVal_beBytes _ n hnlt, ?_, beBytes_bytes _ n, ?_⟩
  · intro hnil
    rw [hnil] at hlen
    simp only [List.length_nil] at hlen
    rw [hmax] at hlen
    omega
  · intro l' hb' hval hnil
    have hlen' : 1 ≤ l'.length := List.length_pos.mpr hnil
    rw [hlen]
    by_cases hL1 : Nat.max 1 ((bit_length n + 7) / 8) ≤ 1
    · omega
    · have hgt : 2 ≤ Nat.max 1 ((bit_length n + 7) / 8) := by omega
      have hdiv : 2 ≤ (bit_length n + 7) / 8 := by rw [hmax] at hgt; omega
      have hbl9 : 9 ≤ bit_length n := by omega
      have hn0 : n ≠ 0 := by
        intro h0
        rw [h0] at hbl9
        simp [bit_length, bitLenAux] at hbl9
      have h1 := hge hn0
      have h2 : n < 256 ^ l'.length := hval ▸ beVal_lt l' hb'
      have h3 : (256 : Nat) ^ l'.length = 2 ^ (8 * l'.length) := by
        rw [show (256 : Nat) = 2 ^ 8 by norm_num, ← pow_mul]
      have h4 : 2 ^ (bit_length n - 1) < 2 ^ (8 * l'.length) := by
        rw [← h3]; omega
      have h5 : bit_length n - 1 < 8 * l'.length :=
        (Nat.pow_lt_pow_iff_right (by norm_num)).mp h4
      rw [hmax]
      omega

/-- C6: the integer register address is converted to its minimal big-endian
byte encoding — the fewest bytes that represent the value, and at least one
byte, so 0 encodes as `[0]` — and `i2c_read(0x50, 0x10, 16)` encodes the
register address as the single byte `0x10` and places the requested length
16 as the final command-payload byte of the written frame. -/
theorem i2c_read_reg_addr_encoding (ctI2c opI2cRead : Nat)
    (hc : ctI2c ≤ 255) (ho : opI2cRead ≤ 255) :
    (∀ n : Nat, specIsMinimalBe n (natToBeBytes n)) ∧
    natToBeBytes 0x10 = [0x10] ∧
    i2c_read_frame ctI2c opI2cRead 0x50 (.int 0x10) 16 =
      .ok [6, ctI2c, opI2cRead, 0x50, 1, 0x10, 0x10,
        crc (.bytes [ctI2c, opI2cRead, 0x50, 1, 0x10, 0x10])] := by
  refine ⟨natToBeBytes_minimal, by decide, ?_⟩
  have hra : regAddrToBytes (.int 0x10) = [0x10] := by decide
  have hcrc : crc (.bytes [ctI2c, opI2cRead, 0x50, 1, 0x10, 0x10]) ≤ 255 := by
    apply crc_bytes_le
    intro b hb
    simp only [List.mem_cons, List.not_mem_nil, or_false] at hb
    rcases hb with rfl | rfl | rfl | rfl | rfl | rfl <;> omega
  have hmk : make_cmd ctI2c (some [opI2cRead, 0x50, 1, 0x10, 0x10]) =
      some [6, ctI2c, opI2cRead, 0x50, 1, 0x10, 0x10,
        crc (.bytes [ctI2c, opI2cRead, 0x50, 1, 0x10, 0x10])] := by
    simp [make_cmd, hc, hcrc]
  simp [i2c_read_frame, hra, hmk, hc, ho]

/-- C6 witness: the opcode byte bounds discharged at `ctI2c = 0`,
`opI2cRead = 0`. -/
theorem i2c_read_reg_addr_encoding_witness :
    i2c_read_frame 0 0 0x50 (.int 0x10) 16 =
      .ok [6, 0, 0, 0x50, 1, 0x10, 0x10, crc (.bytes [0, 0, 0x50, 1, 0x10, 0x10])] :=
  (i2c_read_reg_addr_encoding 0 0 (by decide) (by decide)).2.2

namespace KiconBadge

/-- Lowercase hex rendering of `n` (Python `'%x' % n`). -/
def hexStr (n : Nat) : String := String.mk (Nat.toDigits 16 n)

/-- Zero-padded two-digit lowercase hex (Python `'%.2x' % n`). -/
def hex2Str (n : Nat) : String := if n < 16 then "0" ++ hexStr n else hexStr n

/-- `binascii.hexlify` of a byte string: two lowercase hex digits per byte. -/
def hexlify (l : List Nat) : String := String.join (l.map hex2Str)

/-- The CRC-mismatch message of `_get_resp` (lines 86-87). -/
def crcErrorMsg (computed received : Nat) : String :=
  "CRC error (expected 0x" ++ hexStr computed ++ ", got 0x" ++ hexStr received ++ ")"

/-- The not-OK-status message of `_get_resp` (lines 90-91). -/
def protocolErrorMsg (status : Nat) (payload : List Nat) : String :=
  "Response != OK: response = 0x" ++ hex2Str status ++ ", data = \"" ++
    hexlify payload ++ "\""

/-- The reset-handshake failure message of `init` (line 114). -/
def resetFailureMsg : String := "No response after reset"

/-- The remaining validation messages (lines 205, 270, 273, 288). -/
def i2cClockMsg : String := "I2C clock must be in range [1-400] kHz"

def spiClockMsg : String := "SPI clock must be in range [1-60000] kHz"

def spiModeMsg : String := "SPI mode must be in range [0-3]"

def spiDataLenMsg : String := "SPI data lenght must be in range [0-255]"

/-- Every input-validation (InvalidArgument) message the source can raise. -/
def invalidArgumentMsgs : List String :=
  [ledInvalidMsg, i2cClockMsg, i2cRegAddrMsg, i2cReadLenMsg, i2cWriteLenMsg,
   spiClockMsg, spiModeMsg, spiDataLenMsg]

end KiconBadge

/-- C9 counterexample: transport timeouts are not surfaced as a distinct
error kind.  The truncated stream `[5, 1]` — a timed-out read that delivered
one body byte where the length byte announced six — produces exactly the same
checksum-error value as the complete but corrupted frame `[1, 0, 1]`, so the
caller cannot tell a TransportTimeout from a ChecksumError. -/
theorem timeout_error_not_distinct :
    ¬ wellFormed [5, 1] ∧
    get_resp 0 [5, 1] = .error (.crcError 0 1) ∧
    wellFormed [1, 0, 1] ∧
    get_resp 0 [1, 0, 1] = .error (.crcError 0 1) :=
  ⟨by decide, rfl, by decide, rfl⟩

lemma string_ne_of_take3 {s t : String} (h : s.data.take 3 ≠ t.data.take 3) :
    s ≠ t :=
  fun e => h (by rw [e])

/-- C9 (amended): the four error kinds the code actually raises —
InvalidArgument from validation, the checksum and protocol errors of
`_get_resp`, and the reset failure of `init` — are distinguishable from the
error value alone: their message strings are pairwise distinct across kinds
for every parameter value.  (Transport timeouts are not a distinct kind;
see the counterexample.) -/
theorem error_kinds_distinguishable (a b s : Nat) (p : List Nat) :
    crcErrorMsg a b ≠ resetFailureMsg ∧
    protocolErrorMsg s p ≠ resetFailureMsg ∧
    crcErrorMsg a b ≠ protocolErrorMsg s p ∧
    (∀ m ∈ invalidArgumentMsgs,
      crcErrorMsg a b ≠ m ∧ protocolErrorMsg s p ≠ m ∧ resetFailureMsg ≠ m) := by
  have hC : (crcErrorMsg a b).data.take 3 = ['C', 'R', 'C'] := rfl
  have hP : (protocolErrorMsg s p).data.take 3 = ['R', 'e', 's'] := rfl
  have hN : resetFailureMsg.data.take 3 = ['N', 'o', ' '] := rfl
  refine ⟨?_, ?_, ?_, fun m hm => ?_⟩
  · exact string_ne_of_take3 (by rw [hC, hN]; decide)
  · exact string_ne_of_take3 (by rw [hP, hN]; decide)
  · exact string_ne_of_take3 (by rw [hC, hP]; decide)
  · simp only [invalidArgumentMsgs, List.mem_cons, List.not_mem_nil, or_false] at hm
    rcases hm with rfl | rfl | rfl | rfl | rfl | rfl | rfl | rfl <;>
      exact ⟨string_ne_of_take3 (by rw [hC]; decide),
             string_ne_of_take3 (by rw [hP]; decide),
             by decide⟩

/-- C9 witness for the amended theorem: the membership hypothesis discharged
at the LED validation message, with concrete error parameters. -/
theorem error_kinds_distinguishable_witness :
    crcErrorMsg 0 1 ≠ resetFailureMsg ∧
    protocolErrorMsg 2 [3] ≠ resetFailureMsg ∧
    crcErrorMsg 0 1 ≠ protocolErrorMsg 2 [3] ∧
    crcErrorMsg 0 1 ≠ ledInvalidMsg :=
  ⟨(error_kinds_distinguishable 0 1 2 [3]).1,
   (error_kinds_distinguishable 0 1 2 [3]).2.1,
   (error_kinds_distinguishable 0 1 2 [3]).2.2.1,
   ((error_kinds_distinguishable 0 1 2 [3]).2.2.2 ledInvalidMsg
      (by simp [invalidArgumentMsgs])).1⟩
